import Mathlib

/-!
Verification development for the color template library.

The library's floating-point channel code uses only rational arithmetic
(+, -, *, /, abs, comparisons) except for the HSI/polar conversions, which
use cos/atan2/sqrt.  We therefore embed the purely rational parts over `ℚ`
(keeping every definition executable and decidable on concrete inputs) and
the trigonometric parts over `ℝ`.  Integer-storage channels are embedded as
`ℕ` with explicit `% 2^w` where C++ narrowing conversions occur.
-/

namespace ColorLib

/-- The division-by-zero guard constant 1e-10 used by `to_hsv` / `to_hsl`
(Hsv.h, Hsl.h, ConvertUtil.h); generic because the C++ code is templated
over the floating-point type. -/
def EPSILON {α : Type} [DivisionRing α] : α := 1 / 10000000000

/-- FLOAT_EPSILON from Color.h: 1e-5, used by `alpha_blend`. -/
def FLOAT_EPSILON : ℚ := 1 / 100000

/-- std::numeric_limits of float epsilon, 2 to the power -23; this exact value is
`1.0 - PeriodicChannel;float;::max_value()` (Channel.h). -/
def floatMachineEps : ℚ := 1 / 8388608

namespace details

/-- Embeds `details::lerp_flat` (Channel.h): plain linear interpolation. -/
def lerp_flat (start e : ℚ) (pos : ℚ) : ℚ :=
  (1 - pos) * start + pos * e

/-- PeriodicChannel for float storage: `max_value() = 1.0 - epsilon` (Channel.h). -/
def periodicMaxValue : ℚ := 1 - floatMachineEps

/-- PeriodicChannel for float storage: `center_value() = 0.5` (Channel.h). -/
def periodicCenterValue : ℚ := 1 / 2

/-- Embeds `details::lerp_cyclic` (Channel.h) for float periodic channels:
if the direct distance exceeds `center_value()`, interpolate through the
wrap point (one conditional wrap at `max_value()`), otherwise fall back to
`lerp_flat`. -/
def lerp_cyclic (start e : ℚ) (pos : ℚ) : ℚ :=
  let forward_len := |e - start|
  let center := periodicCenterValue
  if forward_len > center then
    let max_val := periodicMaxValue
    let inv_pos := 1 - pos
    let out := if start > e then
        start * inv_pos + (e + max_val) * pos
      else
        (start + max_val) * inv_pos + e * pos
    if out ≥ max_val then out - max_val else out
  else
    lerp_flat start e pos

end details

/-- Spec-level helper for the circular-interpolation claims: wrap a value
once into `[0, periodicMaxValue)` at the boundary `periodicMaxValue`. -/
def wrapOnce (x : ℚ) : ℚ :=
  if x ≥ details.periodicMaxValue then x - details.periodicMaxValue
  else if x < 0 then x + details.periodicMaxValue
  else x

/-- Spec-level helper: the signed displacement of the arc that runs from
`start` to `e` THROUGH the wrap point (positive when wrapping upward past
`max_value`, negative when wrapping downward past 0). -/
def cyclicDelta (start e : ℚ) : ℚ :=
  if start > e then details.periodicMaxValue - (start - e)
  else e - start - details.periodicMaxValue

/-- C5: circular interpolation on a periodic (hue) channel always takes the
shorter arc: whenever the direct distance exceeds half the period, `lerp`
interpolates through the wrap point (the result is the once-wrapped linear
interpolation along the wrap-crossing arc, whose length is strictly shorter
than the direct distance); in particular lerping from 0.1 to 0.9 at
position 0.5 yields approximately 0.0, not 0.5. -/
theorem lerp_cyclic_shorter_arc :
    (∀ s e p : ℚ, 0 ≤ s → s ≤ details.periodicMaxValue →
      0 ≤ e → e ≤ details.periodicMaxValue → 0 ≤ p → p ≤ 1 →
      |e - s| > 1 / 2 →
      details.lerp_cyclic s e p = wrapOnce (s + p * cyclicDelta s e) ∧
      |cyclicDelta s e| < |e - s|) ∧
    |details.lerp_cyclic (1/10) (9/10) (1/2) - 0| ≤ 1 / 100000 ∧
    details.lerp_cyclic (1/10) (9/10) (1/2) ≠ 1 / 2 := by
  refine ⟨?_, by norm_num [details.lerp_cyclic, details.lerp_flat, abs_of_nonneg,
    details.periodicMaxValue, details.periodicCenterValue, floatMachineEps],
    by norm_num [details.lerp_cyclic, details.lerp_flat, abs_of_nonneg,
      details.periodicMaxValue, details.periodicCenterValue, floatMachineEps]⟩
  intro s e p hs0 hsM he0 heM hp0 hp1 hfar
  have hMlt : details.periodicMaxValue < 1 := by
    simp only [details.periodicMaxValue, floatMachineEps]; norm_num
  have hM0 : (0 : ℚ) < details.periodicMaxValue := by
    simp only [details.periodicMaxValue, floatMachineEps]; norm_num
  simp only [details.lerp_cyclic, details.periodicCenterValue, cyclicDelta, wrapOnce]
  rcases lt_or_le e s with hse | hse
  · -- start > e : wrap upward past max_value
    have habs : |e - s| = s - e := by rw [abs_of_nonpos (by linarith)]; ring
    rw [habs] at hfar
    have hδ0 : 0 ≤ details.periodicMaxValue - (s - e) := by linarith
    rw [if_pos (by rw [habs]; exact hfar), if_pos hse, if_pos hse]
    have hx0 : 0 ≤ s + p * (details.periodicMaxValue - (s - e)) := by positivity
    constructor
    · have hout : s * (1 - p) + (e + details.periodicMaxValue) * p
          = s + p * (details.periodicMaxValue - (s - e)) := by ring
      rw [hout]
      rcases le_or_lt details.periodicMaxValue
          (s + p * (details.periodicMaxValue - (s - e))) with hw | hw
      · rw [if_pos hw, if_pos hw]
      · rw [if_neg (not_le.mpr hw), if_neg (not_le.mpr hw), if_neg (not_lt.mpr hx0)]
    · rw [habs, abs_of_nonneg hδ0]; linarith
  · -- start <= e (and start < e since the distance is positive): wrap downward
    have habs : |e - s| = e - s := by rw [abs_of_nonneg (by linarith)]
    rw [habs] at hfar
    have hslt : s < e := by linarith
    have hδ0 : e - s - details.periodicMaxValue ≤ 0 := by linarith
    rw [if_pos (by rw [habs]; exact hfar), if_neg (not_lt.mpr hse),
      if_neg (not_lt.mpr hse)]
    have hxlt : s + p * (e - s - details.periodicMaxValue) < details.periodicMaxValue := by
      nlinarith
    constructor
    · have hout : (s + details.periodicMaxValue) * (1 - p) + e * p
          = s + p * (e - s - details.periodicMaxValue) + details.periodicMaxValue := by
        ring
      rw [hout, if_neg (not_le.mpr hxlt)]
      rcases le_or_lt 0 (s + p * (e - s - details.periodicMaxValue)) with hw | hw
      · rw [if_pos (by linarith), if_neg (not_lt.mpr hw)]; ring
      · rw [if_neg (by push_neg; linarith), if_pos hw]
    · rw [habs, abs_of_nonpos hδ0]; linarith

/-- C5 witness: the general shorter-arc statement applied at
start 0.1, end 0.9, position 0.5. -/
theorem lerp_cyclic_shorter_arc_witness :
    details.lerp_cyclic (1/10) (9/10) (1/2)
        = wrapOnce (1/10 + (1/2) * cyclicDelta (1/10) (9/10)) ∧
    |cyclicDelta (1/10) (9/10)| < |(9/10 : ℚ) - 1/10| :=
  lerp_cyclic_shorter_arc.1 (1/10) (9/10) (1/2) (by norm_num)
    (by norm_num [details.periodicMaxValue, floatMachineEps]) (by norm_num)
    (by norm_num [details.periodicMaxValue, floatMachineEps]) (by norm_num)
    (by norm_num) (by norm_num [abs_of_nonneg])

/-- C8 counterexample: with endpoints exactly half a period apart the code
does NOT always move in the increasing-value (wrap-crossing) direction.
From 0.75 to 0.25 at position 0.5 the increasing direction would give the
once-wrapped value of 0.75 + 0.5 times the half period (approximately 0),
but `lerp_cyclic` returns 0.5, the midpoint of the direct decreasing path. -/
theorem lerp_cyclic_half_period_not_increasing :
    |(1/4 : ℚ) - 3/4| = details.periodicCenterValue ∧
    details.lerp_cyclic (3/4) (1/4) (1/2) = 1 / 2 ∧
    details.lerp_cyclic (3/4) (1/4) (1/2) ≠ wrapOnce (3/4 + (1/2) * (1/2)) := by
  refine ⟨by norm_num [details.periodicCenterValue, abs_of_nonpos], ?_, ?_⟩ <;>
    norm_num [details.lerp_cyclic, details.lerp_flat, details.periodicMaxValue,
      details.periodicCenterValue, floatMachineEps, wrapOnce, abs_of_nonpos]

/-- C8 amended: when the two endpoints of a circular lerp are exactly half a
period apart, the wrap test `forward_len > center_value` fails and the
interpolation deterministically falls back to the direct linear path
(`lerp_flat`); the motion is increasing precisely when `e > s`, not for
every pair of such endpoints. -/
theorem lerp_cyclic_half_period_is_flat (s e p : ℚ) (h : |e - s| = 1 / 2) :
    details.lerp_cyclic s e p = details.lerp_flat s e p := by
  simp only [details.lerp_cyclic, details.periodicCenterValue, h]
  norm_num

/-- C8 amended witness: the flat fall-back at the concrete half-period pair
(0.75, 0.25) at position 0.5. -/
theorem lerp_cyclic_half_period_is_flat_witness :
    details.lerp_cyclic (3/4) (1/4) (1/2) = details.lerp_flat (3/4) (1/4) (1/2) :=
  lerp_cyclic_half_period_is_flat (3/4) (1/4) (1/2) (by norm_num)

/-! ### Color value types (Rgb.h, Hsv.h, Hsl.h, Hsi.h, Alpha.h) -/

/-- Embeds `Rgb;T;`: three bounded channels in order red, green, blue. -/
structure Rgb (α : Type) where
  red : α
  green : α
  blue : α
deriving DecidableEq

/-- Embeds `Hsv;T;`: a periodic hue channel and bounded saturation and value. -/
structure Hsv (α : Type) where
  hue : α
  saturation : α
  value : α
deriving DecidableEq

/-- Embeds `Hsl;T;`: a periodic hue channel and bounded saturation and lightness. -/
structure Hsl (α : Type) where
  hue : α
  saturation : α
  lightness : α
deriving DecidableEq

/-- Embeds `Hsi;T;`: a periodic hue channel and bounded saturation and intensity. -/
structure Hsi (α : Type) where
  hue : α
  saturation : α
  intensity : α
deriving DecidableEq

/-- Embeds `Alpha;T, Color;` (Alpha.h): an inner color plus a bounded
alpha channel. -/
structure Alpha (α : Type) (Color : Type → Type) where
  color : Color α
  alpha : α

/-- Embeds `Rgb::broadcast`. -/
def Rgb.broadcast {α : Type} (v : α) : Rgb α := ⟨v, v, v⟩

/-- Embeds `Rgb::scale` (channel-wise multiplication by a factor). -/
def Rgb.scale {α : Type} [Mul α] (c : Rgb α) (factor : α) : Rgb α :=
  ⟨c.red * factor, c.green * factor, c.blue * factor⟩

/-- Embeds `Rgb::lerp`: every RGB channel is bounded, so each channel is
interpolated with `details::lerp_flat`. -/
def Rgb.lerp (c e : Rgb ℚ) (pos : ℚ) : Rgb ℚ :=
  ⟨details.lerp_flat c.red e.red pos,
   details.lerp_flat c.green e.green pos,
   details.lerp_flat c.blue e.blue pos⟩

/-! ### Conversion helpers (ConvertUtil.h) -/

namespace details

/-- Embeds `details::order_channels_for_hue` (ConvertUtil.h).  The C++
function reorders the channel references so that `c1` holds the maximum,
writes the minimum channel to `min_channel_out`, and returns the hue
scaling factor; we return the tuple
`(c1, c2, c3, min_channel_out, hue_scaling_factor)`. -/
def order_channels_for_hue {α : Type} [LinearOrderedField α] (c1 c2 c3 : α) :
    α × α × α × α × α :=
  match (if c2 < c3 then (c3, c2, (-1 : α)) else (c2, c3, (0 : α))) with
  | (c2a, c3a, sf) =>
    if c1 < c2a then (c2a, c1, c3a, min c1 c3a, -(1/3) - sf)
    else (c1, c2a, c3a, c3a, sf)

/-- Embeds `details::chroma` (ConvertUtil.h). -/
def chroma {α : Type} [LinearOrderedField α] (max_channel min_channel : α) : α :=
  max_channel - min_channel

/-- Embeds `details::hue` (ConvertUtil.h); `EPS` is the explicit value of the
defaulted C++ parameter `EPSILON = 1e-10`. -/
def hue {α : Type} [LinearOrderedField α] (chroma scaling c2 c3 EPS : α) : α :=
  |scaling + (c2 - c3) / (6 * chroma + EPS)|

end details

/-- C++ `static_cast;int;` from a floating value: truncation toward zero. -/
def cppTrunc {α : Type} [LinearOrderedField α] [FloorRing α] (x : α) : ℤ :=
  if 0 ≤ x then ⌊x⌋ else -⌊-x⌋

/-- Embeds `details::decompose_hue` (ConvertUtil.h): the hue sector index
(`static_cast;int;(hue * 6)`) together with the fractional position inside
the sector. -/
def decompose_hue {α : Type} [LinearOrderedField α] [FloorRing α] (hue : α) :
    ℤ × α :=
  let scaled_hue := hue * 6
  let seg := cppTrunc scaled_hue
  (seg, scaled_hue - (seg : α))

/-- Embeds the floating-point `to_hsv` (Hsv.h). -/
def to_hsv (f : Rgb ℚ) : Hsv ℚ :=
  match details.order_channels_for_hue f.red f.green f.blue with
  | (c1, c2, c3, min_channel, scaling_factor) =>
    let chroma := details.chroma c1 min_channel
    let hue := details.hue chroma scaling_factor c2 c3 EPSILON
    let value := c1
    let saturation := chroma / (value + EPSILON)
    ⟨hue, saturation, value⟩

namespace Hsv

/-- Embeds the floating-point `to_rgb(const Hsv;T;&)` (Hsv.h): decompose the
hue into one of the six sectors and rebuild the RGB channels; the
unreachable default sector yields the defensive zero color. -/
def to_rgb (f : Hsv ℚ) : Rgb ℚ :=
  let d := decompose_hue f.hue
  let hue_seg := d.1
  let hue_frac := d.2
  let color_min_bound := f.value * (1 - f.saturation)
  if hue_seg = -1 ∨ hue_seg = 0 then
    Rgb.mk f.value (f.value * (1 - f.saturation * (1 - hue_frac))) color_min_bound
  else if hue_seg = 1 then
    Rgb.mk (f.value * (1 - f.saturation * hue_frac)) f.value color_min_bound
  else if hue_seg = 2 then
    Rgb.mk color_min_bound f.value (f.value * (1 - f.saturation * (1 - hue_frac)))
  else if hue_seg = 3 then
    Rgb.mk color_min_bound (f.value * (1 - f.saturation * hue_frac)) f.value
  else if hue_seg = 4 then
    Rgb.mk (f.value * (1 - f.saturation * (1 - hue_frac))) color_min_bound f.value
  else if hue_seg = 5 ∨ hue_seg = 6 then
    Rgb.mk f.value color_min_bound (f.value * (1 - f.saturation * hue_frac))
  else
    Rgb.broadcast 0

end Hsv

/-! ### Alpha blending (Alpha.h) -/

/-- Embeds the floating-point `alpha_blend(src, dest)` (Alpha.h). -/
def alpha_blend (src dest : Alpha ℚ Rgb) : Alpha ℚ Rgb :=
  let inv_src_alpha := 1 - src.alpha
  let out_alpha := src.alpha + dest.alpha * inv_src_alpha
  if out_alpha ≤ FLOAT_EPSILON then
    ⟨Rgb.broadcast 0, out_alpha⟩
  else
    let premul_dest := dest.color.scale dest.alpha
    ⟨src.color.lerp premul_dest inv_src_alpha, out_alpha⟩

/-- C6 counterexample: for src = RGBA(1,0,0, alpha 0.5) over
dest = RGBA(1,1,1, alpha 0), the output alpha is 0.5 and the code's red
channel is 0.5 (the premultiplied composite), while the claim's
"composite divided by the output alpha" would be 1. -/
theorem alpha_blend_not_divided_by_out_alpha :
    (alpha_blend ⟨⟨1, 0, 0⟩, 1/2⟩ ⟨⟨1, 1, 1⟩, 0⟩).alpha = 1 / 2 ∧
    (alpha_blend ⟨⟨1, 0, 0⟩, 1/2⟩ ⟨⟨1, 1, 1⟩, 0⟩).color.red = 1 / 2 ∧
    ((1 : ℚ) * (1/2) + 1 * 0 * (1 - 1/2)) / (1/2) = 1 ∧
    (alpha_blend ⟨⟨1, 0, 0⟩, 1/2⟩ ⟨⟨1, 1, 1⟩, 0⟩).color.red
      ≠ ((1 : ℚ) * (1/2) + 1 * 0 * (1 - 1/2)) / (1/2) := by
  refine ⟨?_, ?_, by norm_num, ?_⟩ <;>
    norm_num [alpha_blend, FLOAT_EPSILON, Rgb.lerp, Rgb.scale, details.lerp_flat]

/-- C6 amended: `alpha_blend` returns alpha
`src.alpha + dest.alpha * (1 - src.alpha)`, and whenever that output alpha
is above FLOAT_EPSILON the color part is the PREMULTIPLIED src-over-dest
composite `src.color * src.alpha + dest.color * dest.alpha * (1 - src.alpha)`
(it is not divided by the output alpha). -/
theorem alpha_blend_premultiplied_composite (src dest : Alpha ℚ Rgb) :
    (alpha_blend src dest).alpha = src.alpha + dest.alpha * (1 - src.alpha) ∧
    (FLOAT_EPSILON < src.alpha + dest.alpha * (1 - src.alpha) →
      (alpha_blend src dest).color = Rgb.mk
        (src.color.red * src.alpha + dest.color.red * dest.alpha * (1 - src.alpha))
        (src.color.green * src.alpha + dest.color.green * dest.alpha * (1 - src.alpha))
        (src.color.blue * src.alpha + dest.color.blue * dest.alpha * (1 - src.alpha))) := by
  constructor
  · simp only [alpha_blend]
    split <;> rfl
  · intro h
    simp only [alpha_blend, if_neg (not_le.mpr h), Rgb.lerp, Rgb.scale,
      details.lerp_flat, Rgb.mk.injEq]
    refine ⟨by ring, by ring, by ring⟩

/-- C6 amended witness: the premultiplied composite at the counterexample
inputs (output alpha 0.5, red channel 0.5). -/
theorem alpha_blend_premultiplied_composite_witness :
    (alpha_blend ⟨⟨1, 0, 0⟩, 1/2⟩ ⟨⟨1, 1, 1⟩, 0⟩).alpha
        = 1/2 + 0 * (1 - 1/2) ∧
    (alpha_blend ⟨⟨1, 0, 0⟩, 1/2⟩ ⟨⟨1, 1, 1⟩, 0⟩).color = Rgb.mk
        (1 * (1/2) + 1 * 0 * (1 - 1/2))
        (0 * (1/2) + 1 * 0 * (1 - 1/2))
        (0 * (1/2) + 1 * 0 * (1 - 1/2)) := by
  have h := alpha_blend_premultiplied_composite ⟨⟨1, 0, 0⟩, 1/2⟩ ⟨⟨1, 1, 1⟩, 0⟩
  exact ⟨h.1, h.2 (by norm_num [FLOAT_EPSILON])⟩

/-! ### Cross-type numeric casts (ColorCast.h) -/

/-- Embeds `details::tuple_transform_functor` for a float-storage channel
cast onto the same float type: scaling factor
`(end_point - min_value) / (end_point - min_value) = (1 - 0)/(1 - 0)` and
shift `0 - 0` (both bounded and periodic float channels have
`min_value() = 0` and `end_point() = 1`). -/
def tuple_transform_float_same (v : ℚ) : ℚ := v * ((1 - 0) / (1 - 0)) + (0 - 0)

/-- Embeds `details::tuple_transform_functor` for a uint8 bounded channel
cast onto uint8: `end_point() = 255`, `min_value() = 0`, the scaling factor
`(255 - 0) / (255 - 0)` is computed in `uintmax_t` (here `ℕ`) division, and
the final store into the uint8 channel narrows mod 2^8. -/
def tuple_transform_u8_same (v : ℕ) : ℕ :=
  (v * ((255 - 0) / (255 - 0)) + (0 - 0)) % 256

/-- Embeds `details::tuple_transform_functor` for a uint16 bounded channel
cast onto uint8: the scaling factor `(255 - 0) / (65535 - 0)` is computed in
`uintmax_t` integer division (so it truncates), and the final store into the
uint8 channel narrows mod 2^8. -/
def tuple_transform_u16_to_u8 (v : ℕ) : ℕ :=
  (v * ((255 - 0) / (65535 - 0)) + (0 - 0)) % 256

/-- Embeds `details::color_cast_specialization;To, To, Color;` (ColorCast.h):
when source and target storage types coincide, `color_cast` returns its
argument unchanged; instantiated at float storage. -/
def color_cast_sameQ (color : Rgb ℚ) : Rgb ℚ := color

/-- Embeds `details::color_cast_specialization;To, To, Color;` instantiated
at uint8 storage. -/
def color_cast_sameU8 (color : Rgb ℕ) : Rgb ℕ := color

/-- Embeds the Alpha overload of `color_cast` (ColorCast.h) for
float storage to itself: the Alpha overload has no same-type specialization
and always routes every channel through `tuple_transform_functor`. -/
def color_cast_alphaQ_same (color : Alpha ℚ Rgb) : Alpha ℚ Rgb :=
  ⟨⟨tuple_transform_float_same color.color.red,
    tuple_transform_float_same color.color.green,
    tuple_transform_float_same color.color.blue⟩,
   tuple_transform_float_same color.alpha⟩

/-- Embeds the Alpha overload of `color_cast` for uint8 storage to itself. -/
def color_cast_alphaU8_same (color : Alpha ℕ Rgb) : Alpha ℕ Rgb :=
  ⟨⟨tuple_transform_u8_same color.color.red,
    tuple_transform_u8_same color.color.green,
    tuple_transform_u8_same color.color.blue⟩,
   tuple_transform_u8_same color.alpha⟩

/-- Embeds `color_cast;uint8_t;` applied to an `Rgb;uint16_t;` (the generic
specialization routing every channel through `tuple_transform_functor`). -/
def color_cast_u16_to_u8 (color : Rgb ℕ) : Rgb ℕ :=
  ⟨tuple_transform_u16_to_u8 color.red,
   tuple_transform_u16_to_u8 color.green,
   tuple_transform_u16_to_u8 color.blue⟩

/-- C7: casting a color to its own storage type is the identity, for plain
colors (via the `;To, To, Color;` specialization) and for Alpha-wrapped
colors (via the channel transform formula), at both float and uint8
storage (uint8 channel values are below 2^8). -/
theorem color_cast_same_type_identity :
    (∀ c : Rgb ℚ, color_cast_sameQ c = c) ∧
    (∀ c : Rgb ℕ, color_cast_sameU8 c = c) ∧
    (∀ c : Alpha ℚ Rgb, color_cast_alphaQ_same c = c) ∧
    (∀ c : Alpha ℕ Rgb, c.color.red < 256 → c.color.green < 256 →
      c.color.blue < 256 → c.alpha < 256 → color_cast_alphaU8_same c = c) := by
  refine ⟨fun c => rfl, fun c => rfl, ?_, ?_⟩
  · rintro ⟨⟨r, g, b⟩, a⟩
    simp [color_cast_alphaQ_same, tuple_transform_float_same]
  · rintro ⟨⟨r, g, b⟩, a⟩ hr hg hb ha
    simp only [color_cast_alphaU8_same, tuple_transform_u8_same] at *
    simp_all [Nat.mod_eq_of_lt]

/-- C7 witness: the identity cast at concrete float and uint8 colors. -/
theorem color_cast_same_type_identity_witness :
    color_cast_alphaQ_same ⟨⟨1/2, 1/4, 0⟩, 1⟩ = ⟨⟨1/2, 1/4, 0⟩, 1⟩ ∧
    color_cast_alphaU8_same ⟨⟨12, 200, 255⟩, 7⟩ = ⟨⟨12, 200, 255⟩, 7⟩ :=
  ⟨color_cast_same_type_identity.2.2.1 ⟨⟨1/2, 1/4, 0⟩, 1⟩,
   color_cast_same_type_identity.2.2.2 ⟨⟨12, 200, 255⟩, 7⟩
     (by norm_num) (by norm_num) (by norm_num) (by norm_num)⟩

/-- C9: casting `Rgb;uint16_t;` down to uint8 zeroes every channel, because
the integer scaling factor `(255 - 0) / (65535 - 0)` truncates to 0. -/
theorem color_cast_u16_to_u8_zeroes (c : Rgb ℕ) :
    color_cast_u16_to_u8 c = Rgb.mk 0 0 0 := by
  simp [color_cast_u16_to_u8, tuple_transform_u16_to_u8]

/-! ### Channel inverse for integral storage (Channel.h, Rgb.h) -/

/-- Embeds `BoundedChannelImpl;integral;::inverse` (`return ~value;`) for
uint8 storage: on values below 2^8 the bitwise complement is `255 - v`. -/
def BoundedChannelU8.inverse (v : ℕ) : ℕ := 255 - v

/-- Embeds `Rgb::inverse` at uint8 storage (channel-wise complement). -/
def Rgb.inverse_u8 (c : Rgb ℕ) : Rgb ℕ :=
  ⟨BoundedChannelU8.inverse c.red,
   BoundedChannelU8.inverse c.green,
   BoundedChannelU8.inverse c.blue⟩

/-- C10: `inverse()` is an involution on integer-storage RGB colors: each
uint8 bounded channel inverse is the bitwise complement, and complementing
twice restores the original color. -/
theorem rgb_inverse_involution (c : Rgb ℕ)
    (hr : c.red ≤ 255) (hg : c.green ≤ 255) (hb : c.blue ≤ 255) :
    (c.inverse_u8).inverse_u8 = c := by
  obtain ⟨r, g, b⟩ := c
  simp only [Rgb.inverse_u8, BoundedChannelU8.inverse, Rgb.mk.injEq] at *
  omega

/-- C10 witness: the double inverse at the concrete color (10, 200, 255). -/
theorem rgb_inverse_involution_witness :
    (Rgb.inverse_u8 (Rgb.inverse_u8 ⟨10, 200, 255⟩)) = (⟨10, 200, 255⟩ : Rgb ℕ) :=
  rgb_inverse_involution ⟨10, 200, 255⟩ (by norm_num) (by norm_num) (by norm_num)

/-! ### The HSV round trip (C1)

`to_hsv` followed by `to_rgb` reproduces each input channel up to an error
that is only a few multiples of the 1e-10 division guard.  The maximum
channel is reproduced exactly; the minimum channel comes back as
`mx * (1 - chroma/(mx + eps))` and the remaining channel as
`mx * (1 - sat * x)` for the appropriate sector fraction `x`; the two
lemmas below bound those errors. -/

theorem epsilonQ_pos : (0 : ℚ) < EPSILON := by norm_num [EPSILON]

/-- Error of the reconstructed minimum channel: `value * (1 - saturation)`
differs from the original minimum channel by at most EPSILON. -/
theorem low_channel_err (mx mn : ℚ) (h0 : 0 ≤ mn) (h1 : mn ≤ mx) :
    |mx * (1 - (mx - mn) / (mx + EPSILON)) - mn| ≤ EPSILON := by
  have hε := epsilonQ_pos
  have hd : 0 < mx + EPSILON := by linarith
  have heq : mx * (1 - (mx - mn) / (mx + EPSILON)) - mn
      = EPSILON * (mx - mn) / (mx + EPSILON) := by
    field_simp
    ring
  rw [heq, abs_of_nonneg (div_nonneg (mul_nonneg hε.le (sub_nonneg.2 h1)) hd.le)]
  rw [div_le_iff₀ hd]
  nlinarith

/-- Error of the reconstructed middle channel: for every hue sector the
moving channel comes back as
`mx * (1 - (chroma/(mx+eps)) * ((6*(mx-ot)+eps)/(6*chroma+eps)))`,
within 2*EPSILON of the original middle channel `ot`. -/
theorem mid_channel_err (mx ot mn : ℚ) (h0 : 0 ≤ mn) (h1 : mn ≤ ot)
    (h2 : ot ≤ mx) (h3 : mx ≤ 1) :
    |mx * (1 - ((mx - mn) / (mx + EPSILON)) *
        ((6 * (mx - ot) + EPSILON) / (6 * (mx - mn) + EPSILON))) - ot|
      ≤ 2 * EPSILON := by
  clear h3
  have hε := epsilonQ_pos
  have hd1 : 0 < mx + EPSILON := by linarith
  have hd2 : 0 < 6 * (mx - mn) + EPSILON := by nlinarith
  have heq : mx * (1 - ((mx - mn) / (mx + EPSILON)) *
        ((6 * (mx - ot) + EPSILON) / (6 * (mx - mn) + EPSILON))) - ot
      = EPSILON * ((mx - ot) * (mx + 6 * (mx - mn) + EPSILON) - mx * (mx - mn))
        / ((mx + EPSILON) * (6 * (mx - mn) + EPSILON)) := by
    field_simp
    ring
  have hD : 0 < (mx + EPSILON) * (6 * (mx - mn) + EPSILON) := mul_pos hd1 hd2
  rw [heq, abs_div, abs_of_pos hD, div_le_iff₀ hD, abs_mul,
    abs_of_pos hε]
  have hnum : |(mx - ot) * (mx + 6 * (mx - mn) + EPSILON) - mx * (mx - mn)|
      ≤ 2 * ((mx + EPSILON) * (6 * (mx - mn) + EPSILON)) := by
    rw [abs_le]
    constructor
    · nlinarith [mul_nonneg (sub_nonneg.2 h1) (sub_nonneg.2 h2),
        mul_nonneg (sub_nonneg.2 (h1.trans h2)) (sub_nonneg.2 h2)]
    · nlinarith [mul_nonneg (sub_nonneg.2 h1) (sub_nonneg.2 h2),
        mul_nonneg (sub_nonneg.2 (h1.trans h2)) (sub_nonneg.2 h2),
        mul_nonneg (sub_nonneg.2 h2) (sub_nonneg.2 (h1.trans h2))]
  calc EPSILON * |(mx - ot) * (mx + 6 * (mx - mn) + EPSILON) - mx * (mx - mn)|
      ≤ EPSILON * (2 * ((mx + EPSILON) * (6 * (mx - mn) + EPSILON))) :=
        mul_le_mul_of_nonneg_left hnum hε.le
    _ = 2 * EPSILON * ((mx + EPSILON) * (6 * (mx - mn) + EPSILON)) := by ring

/-- Evaluates `decompose_hue` once the sector is known. -/
theorem decompose_hue_eval (h : ℚ) (n : ℤ) (hn : 0 ≤ n)
    (hlo : (n : ℚ) ≤ h * 6) (hhi : h * 6 < n + 1) :
    decompose_hue h = (n, h * 6 - n) := by
  have h0 : (0 : ℚ) ≤ h * 6 := le_trans (by exact_mod_cast hn) hlo
  have : cppTrunc (h * 6) = n := by
    rw [cppTrunc, if_pos h0]
    exact Int.floor_eq_iff.mpr ⟨hlo, by exact_mod_cast hhi⟩
  simp [decompose_hue, this]

/-- `to_hsv` in the sector where blue ≤ green ≤ red. -/
theorem to_hsv_case_rgb (r g b : ℚ) (h1 : ¬ g < b) (h2 : ¬ r < g) :
    to_hsv ⟨r, g, b⟩ =
      ⟨details.hue (details.chroma r b) 0 g b EPSILON,
       details.chroma r b / (r + EPSILON), r⟩ := by
  simp [to_hsv, details.order_channels_for_hue, h1, h2]

/-- `to_hsv` in the sector where green is the maximum (blue ≤ green). -/
theorem to_hsv_case_gmax (r g b : ℚ) (h1 : ¬ g < b) (h2 : r < g) :
    to_hsv ⟨r, g, b⟩ =
      ⟨details.hue (details.chroma g (min r b)) (-(1/3) - 0) r b EPSILON,
       details.chroma g (min r b) / (g + EPSILON), g⟩ := by
  simp [to_hsv, details.order_channels_for_hue, h1, h2]

/-- `to_hsv` in the sector where green < blue ≤ red. -/
theorem to_hsv_case_rmax (r g b : ℚ) (h1 : g < b) (h2 : ¬ r < b) :
    to_hsv ⟨r, g, b⟩ =
      ⟨details.hue (details.chroma r g) (-1) b g EPSILON,
       details.chroma r g / (r + EPSILON), r⟩ := by
  simp [to_hsv, details.order_channels_for_hue, h1, h2]

/-- `to_hsv` in the sector where blue is the strict maximum. -/
theorem to_hsv_case_bmax (r g b : ℚ) (h1 : g < b) (h2 : r < b) :
    to_hsv ⟨r, g, b⟩ =
      ⟨details.hue (details.chroma b (min r g)) (-(1/3) - (-1)) r g EPSILON,
       details.chroma b (min r g) / (b + EPSILON), b⟩ := by
  simp [to_hsv, details.order_channels_for_hue, h1, h2]

/-- Sector-fraction identity: the complementary fraction appearing in every
hue sector of the HSV reconstruction. -/
theorem sector_frac_eq (a u c : ℚ) (hc : c = a + u) (hd : 6 * c + EPSILON ≠ 0) :
    1 - a / (6 * c + EPSILON) * 6 = (6 * u + EPSILON) / (6 * c + EPSILON) := by
  subst hc
  rw [div_mul_eq_mul_div, one_sub_div hd]
  congr 1
  ring

/-- C1: for every floating-point RGB color with channels in the unit
interval, converting to HSV and back reproduces every channel within 1e-5
(the max channel exactly, the others within a couple of multiples of the
1e-10 division guard). -/
theorem hsv_rgb_round_trip (c : Rgb ℚ)
    (hr0 : 0 ≤ c.red) (hr1 : c.red ≤ 1) (hg0 : 0 ≤ c.green) (hg1 : c.green ≤ 1)
    (hb0 : 0 ≤ c.blue) (hb1 : c.blue ≤ 1) :
    |(Hsv.to_rgb (to_hsv c)).red - c.red| ≤ 1 / 100000 ∧
    |(Hsv.to_rgb (to_hsv c)).green - c.green| ≤ 1 / 100000 ∧
    |(Hsv.to_rgb (to_hsv c)).blue - c.blue| ≤ 1 / 100000 := by
  obtain ⟨r, g, b⟩ := c
  simp only at hr0 hr1 hg0 hg1 hb0 hb1 ⊢
  have hε := epsilonQ_pos
  rcases lt_or_le g b with hgb | hgb
  · -- green < blue
    rcases lt_or_le r b with hrb | hrb
    · -- blue is the strict maximum (case D)
      rw [to_hsv_case_bmax r g b hgb hrb]
      rcases le_or_lt g r with hrg | hrg
      · -- g ≤ r < b : sector 4
        rw [min_eq_right hrg]
        have hd2 : 0 < 6 * (b - g) + EPSILON := by nlinarith
        have hne2 : 6 * (b - g) + EPSILON ≠ 0 := hd2.ne'
        have ht0 : 0 ≤ (r - g) / (6 * (b - g) + EPSILON) :=
          div_nonneg (by linarith) hd2.le
        have ht6 : (r - g) / (6 * (b - g) + EPSILON) * 6 < 1 := by
          rw [div_mul_eq_mul_div, div_lt_one hd2]
          nlinarith
        have hhue : details.hue (details.chroma b g) (-(1/3) - (-1)) r g EPSILON
            = 2/3 + (r - g) / (6 * (b - g) + EPSILON) := by
          rw [details.hue, details.chroma, abs_of_nonneg (by linarith :
            (0:ℚ) ≤ -(1/3) - (-1) + (r - g) / (6 * (b - g) + EPSILON))]
          ring
        rw [hhue]
        have hdec : decompose_hue (2/3 + (r - g) / (6 * (b - g) + EPSILON)) =
            (4, (2/3 + (r - g) / (6 * (b - g) + EPSILON)) * 6 - ((4 : ℤ) : ℚ)) := by
          apply decompose_hue_eval _ 4 (by norm_num)
          · push_cast
            linarith
          · push_cast
            linarith
        simp only [Hsv.to_rgb, hdec]
        norm_num
        constructor
        · have hmid := mid_channel_err b r g hg0 hrg hrb.le hb1
          have hfrac : 1 - ((2/3 + (r - g) / (6 * (b - g) + EPSILON)) * 6 - 4)
              = (6 * (b - r) + EPSILON) / (6 * (b - g) + EPSILON) := by
            rw [show 1 - ((2/3 + (r - g) / (6 * (b - g) + EPSILON)) * 6 - 4)
                = 1 - (r - g) / (6 * (b - g) + EPSILON) * 6 from by ring,
              sector_frac_eq (r - g) (b - r) (b - g) (by ring) hne2]
          rw [details.chroma, hfrac]
          exact le_trans hmid (by norm_num [EPSILON])
        · have hlow := low_channel_err b g hg0 (by linarith)
          rw [details.chroma]
          exact le_trans hlow (by norm_num [EPSILON])
      · -- r < g < b : sector 3
        rw [min_eq_left hrg.le]
        have hd2 : 0 < 6 * (b - r) + EPSILON := by nlinarith
        have hne2 : 6 * (b - r) + EPSILON ≠ 0 := hd2.ne'
        have htneg : (r - g) / (6 * (b - r) + EPSILON)
            = -((g - r) / (6 * (b - r) + EPSILON)) := by
          rw [← neg_div, neg_sub]
        have ht6 : (g - r) / (6 * (b - r) + EPSILON) * 6 < 1 := by
          rw [div_mul_eq_mul_div, div_lt_one hd2]
          nlinarith
        have ht0 : 0 < (g - r) / (6 * (b - r) + EPSILON) :=
          div_pos (by linarith) hd2
        have hhue : details.hue (details.chroma b r) (-(1/3) - (-1)) r g EPSILON
            = 2/3 - (g - r) / (6 * (b - r) + EPSILON) := by
          rw [details.hue, details.chroma, abs_of_nonneg (by rw [htneg]; linarith :
            (0:ℚ) ≤ -(1/3) - (-1) + (r - g) / (6 * (b - r) + EPSILON))]
          rw [htneg]
          ring
        rw [hhue]
        have hdec : decompose_hue (2/3 - (g - r) / (6 * (b - r) + EPSILON)) =
            (3, (2/3 - (g - r) / (6 * (b - r) + EPSILON)) * 6 - ((3 : ℤ) : ℚ)) := by
          apply decompose_hue_eval _ 3 (by norm_num)
          · push_cast
            linarith
          · push_cast
            linarith
        simp only [Hsv.to_rgb, hdec]
        norm_num
        constructor
        · have hlow := low_channel_err b r hr0 (by linarith)
          rw [details.chroma]
          exact le_trans hlow (by norm_num [EPSILON])
        · have hmid := mid_channel_err b g r hr0 hrg.le hgb.le hb1
          have hfrac : (2/3 - (g - r) / (6 * (b - r) + EPSILON)) * 6 - 3
              = (6 * (b - g) + EPSILON) / (6 * (b - r) + EPSILON) := by
            rw [show (2/3 - (g - r) / (6 * (b - r) + EPSILON)) * 6 - 3
                = 1 - (g - r) / (6 * (b - r) + EPSILON) * 6 from by ring,
              sector_frac_eq (g - r) (b - g) (b - r) (by ring) hne2]
          rw [details.chroma, hfrac]
          exact le_trans hmid (by norm_num [EPSILON])
    · -- g < b ≤ r : sector 5 (case C)
      rw [to_hsv_case_rmax r g b hgb (not_lt.mpr hrb)]
      have hd2 : 0 < 6 * (r - g) + EPSILON := by nlinarith
      have hne2 : 6 * (r - g) + EPSILON ≠ 0 := hd2.ne'
      have ht6 : (b - g) / (6 * (r - g) + EPSILON) * 6 < 1 := by
        rw [div_mul_eq_mul_div, div_lt_one hd2]
        nlinarith
      have ht0 : 0 < (b - g) / (6 * (r - g) + EPSILON) :=
        div_pos (by linarith) hd2
      have hhue : details.hue (details.chroma r g) (-1) b g EPSILON
          = 1 - (b - g) / (6 * (r - g) + EPSILON) := by
        rw [details.hue, details.chroma, abs_of_nonpos (by linarith :
          (-1 : ℚ) + (b - g) / (6 * (r - g) + EPSILON) ≤ 0)]
        ring
      rw [hhue]
      have hdec : decompose_hue (1 - (b - g) / (6 * (r - g) + EPSILON)) =
          (5, (1 - (b - g) / (6 * (r - g) + EPSILON)) * 6 - ((5 : ℤ) : ℚ)) := by
        apply decompose_hue_eval _ 5 (by norm_num)
        · push_cast
          linarith
        · push_cast
          linarith
      simp only [Hsv.to_rgb, hdec]
      norm_num
      constructor
      · have hlow := low_channel_err r g hg0 (by linarith)
        rw [details.chroma]
        exact le_trans hlow (by norm_num [EPSILON])
      · have hmid := mid_channel_err r b g hg0 hgb.le hrb hr1
        have hfrac : (1 - (b - g) / (6 * (r - g) + EPSILON)) * 6 - 5
            = (6 * (r - b) + EPSILON) / (6 * (r - g) + EPSILON) := by
          rw [show (1 - (b - g) / (6 * (r - g) + EPSILON)) * 6 - 5
              = 1 - (b - g) / (6 * (r - g) + EPSILON) * 6 from by ring,
            sector_frac_eq (b - g) (r - b) (r - g) (by ring) hne2]
        rw [details.chroma, hfrac]
        exact le_trans hmid (by norm_num [EPSILON])
  · -- b ≤ g
    rcases lt_or_le r g with hrg | hrg
    · -- green is the maximum (case B)
      rw [to_hsv_case_gmax r g b (not_lt.mpr hgb) hrg]
      rcases le_or_lt r b with hrb | hrb
      · -- r ≤ b ≤ g : sector 2
        rw [min_eq_left hrb]
        have hd2 : 0 < 6 * (g - r) + EPSILON := by nlinarith
        have hne2 : 6 * (g - r) + EPSILON ≠ 0 := hd2.ne'
        have htneg : (r - b) / (6 * (g - r) + EPSILON)
            = -((b - r) / (6 * (g - r) + EPSILON)) := by
          rw [← neg_div, neg_sub]
        have ht0 : 0 ≤ (b - r) / (6 * (g - r) + EPSILON) :=
          div_nonneg (by linarith) hd2.le
        have ht6 : (b - r) / (6 * (g - r) + EPSILON) * 6 < 1 := by
          rw [div_mul_eq_mul_div, div_lt_one hd2]
          nlinarith
        have hhue : details.hue (details.chroma g r) (-(1/3) - 0) r b EPSILON
            = 1/3 + (b - r) / (6 * (g - r) + EPSILON) := by
          rw [details.hue, details.chroma, abs_of_nonpos (by rw [htneg]; linarith :
            -(1/3) - 0 + (r - b) / (6 * (g - r) + EPSILON) ≤ (0:ℚ))]
          rw [htneg]
          ring
        rw [hhue]
        have hdec : decompose_hue (1/3 + (b - r) / (6 * (g - r) + EPSILON)) =
            (2, (1/3 + (b - r) / (6 * (g - r) + EPSILON)) * 6 - ((2 : ℤ) : ℚ)) := by
          apply decompose_hue_eval _ 2 (by norm_num)
          · push_cast
            linarith
          · push_cast
            linarith
        simp only [Hsv.to_rgb, hdec]
        norm_num
        constructor
        · have hlow := low_channel_err g r hr0 (by linarith)
          rw [details.chroma]
          exact le_trans hlow (by norm_num [EPSILON])
        · have hmid := mid_channel_err g b r hr0 hrb hgb hg1
          have hfrac : 1 - ((1/3 + (b - r) / (6 * (g - r) + EPSILON)) * 6 - 2)
              = (6 * (g - b) + EPSILON) / (6 * (g - r) + EPSILON) := by
            rw [show 1 - ((1/3 + (b - r) / (6 * (g - r) + EPSILON)) * 6 - 2)
                = 1 - (b - r) / (6 * (g - r) + EPSILON) * 6 from by ring,
              sector_frac_eq (b - r) (g - b) (g - r) (by ring) hne2]
          rw [details.chroma, hfrac]
          exact le_trans hmid (by norm_num [EPSILON])
      · -- b < r < g : sector 1
        rw [min_eq_right hrb.le]
        have hd2 : 0 < 6 * (g - b) + EPSILON := by nlinarith
        have hne2 : 6 * (g - b) + EPSILON ≠ 0 := hd2.ne'
        have ht0 : 0 < (r - b) / (6 * (g - b) + EPSILON) :=
          div_pos (by linarith) hd2
        have ht6 : (r - b) / (6 * (g - b) + EPSILON) * 6 < 1 := by
          rw [div_mul_eq_mul_div, div_lt_one hd2]
          nlinarith
        have hhue : details.hue (details.chroma g b) (-(1/3) - 0) r b EPSILON
            = 1/3 - (r - b) / (6 * (g - b) + EPSILON) := by
          rw [details.hue, details.chroma, abs_of_nonpos (by linarith :
            -(1/3) - 0 + (r - b) / (6 * (g - b) + EPSILON) ≤ (0:ℚ))]
          ring
        rw [hhue]
        have hdec : decompose_hue (1/3 - (r - b) / (6 * (g - b) + EPSILON)) =
            (1, (1/3 - (r - b) / (6 * (g - b) + EPSILON)) * 6 - ((1 : ℤ) : ℚ)) := by
          apply decompose_hue_eval _ 1 (by norm_num)
          · push_cast
            linarith
          · push_cast
            linarith
        simp only [Hsv.to_rgb, hdec]
        norm_num
        constructor
        · have hmid := mid_channel_err g r b hb0 hrb.le hrg.le hg1
          have hfrac : (1/3 - (r - b) / (6 * (g - b) + EPSILON)) * 6 - 1
              = (6 * (g - r) + EPSILON) / (6 * (g - b) + EPSILON) := by
            rw [show (1/3 - (r - b) / (6 * (g - b) + EPSILON)) * 6 - 1
                = 1 - (r - b) / (6 * (g - b) + EPSILON) * 6 from by ring,
              sector_frac_eq (r - b) (g - r) (g - b) (by ring) hne2]
          rw [details.chroma, hfrac]
          exact le_trans hmid (by norm_num [EPSILON])
        · have hlow := low_channel_err g b hb0 (by linarith)
          rw [details.chroma]
          exact le_trans hlow (by norm_num [EPSILON])
    · -- b ≤ g ≤ r : sector 0 (case A)
      rw [to_hsv_case_rgb r g b (not_lt.mpr (by linarith)) (not_lt.mpr (by linarith))]
      have hd2 : 0 < 6 * (r - b) + EPSILON := by nlinarith
      have hne2 : 6 * (r - b) + EPSILON ≠ 0 := hd2.ne'
      have hhue : details.hue (details.chroma r b) 0 g b EPSILON
          = (g - b) / (6 * (r - b) + EPSILON) := by
        rw [details.hue, details.chroma, zero_add,
          abs_of_nonneg (div_nonneg (by linarith) hd2.le)]
      rw [hhue]
      have hdec : decompose_hue ((g - b) / (6 * (r - b) + EPSILON)) =
          (0, (g - b) / (6 * (r - b) + EPSILON) * 6 - ((0 : ℤ) : ℚ)) := by
        apply decompose_hue_eval _ 0 le_rfl
        · push_cast
          exact mul_nonneg (div_nonneg (by linarith) hd2.le) (by norm_num)
        · rw [div_mul_eq_mul_div, div_lt_iff₀ hd2]
          push_cast
          nlinarith
      simp only [Hsv.to_rgb, hdec, Int.cast_zero, sub_zero]
      norm_num
      constructor
      · have hmid := mid_channel_err r g b hb0 hgb hrg hr1
        have hfrac : 1 - (g - b) / (6 * (r - b) + EPSILON) * 6
            = (6 * (r - g) + EPSILON) / (6 * (r - b) + EPSILON) :=
          sector_frac_eq (g - b) (r - g) (r - b) (by ring) hne2
        rw [details.chroma, hfrac]
        exact le_trans hmid (by norm_num [EPSILON])
      · have hlow := low_channel_err r b hb0 (by linarith)
        rw [details.chroma]
        exact le_trans hlow (by norm_num [EPSILON])


/-- C1 witness: the round trip at the concrete color (0.5, 0.25, 0). -/
theorem hsv_rgb_round_trip_witness :
    |(Hsv.to_rgb (to_hsv ⟨1/2, 1/4, 0⟩)).red - 1/2| ≤ 1 / 100000 ∧
    |(Hsv.to_rgb (to_hsv ⟨1/2, 1/4, 0⟩)).green - 1/4| ≤ 1 / 100000 ∧
    |(Hsv.to_rgb (to_hsv ⟨1/2, 1/4, 0⟩)).blue - 0| ≤ 1 / 100000 :=
  hsv_rgb_round_trip ⟨1/2, 1/4, 0⟩ (by norm_num) (by norm_num) (by norm_num)
    (by norm_num) (by norm_num) (by norm_num)

/-! ### The trigonometric conversions (Hsi.h, ToHsi.h, Hsl.h, Angle.h)

These use cos / atan2 / sqrt / fmod, embedded over `ℝ`; the C++ constant
`PI;T;` (a truncated decimal literal for pi) is idealized as `Real.pi`. -/

/-- Embeds `Radians;T;::period_length()` (Angle.h): `2 * PI`. -/
noncomputable def Radians.period_length : ℝ := 2 * Real.pi

/-- C `std::fmod` for the arguments used here: `x - trunc(x / m) * m`. -/
noncomputable def fmodR (x m : ℝ) : ℝ := x - m * ((cppTrunc (x / m) : ℤ) : ℝ)

/-- C `std::atan2`. -/
noncomputable def atan2 (y x : ℝ) : ℝ :=
  if 0 < x then Real.arctan (y / x)
  else if x < 0 then
    (if 0 ≤ y then Real.arctan (y / x) + Real.pi
     else Real.arctan (y / x) - Real.pi)
  else
    (if 0 < y then Real.pi / 2 else if y < 0 then -(Real.pi / 2) else 0)

/-- Embeds `chromacity_coordinates` (Rgb.h):
`alpha = red - 0.5*(green + blue)`, `beta = sqrt(3)*0.5*(green - blue)`. -/
noncomputable def chromacity_coordinates (color : Rgb ℝ) : ℝ × ℝ :=
  (color.red - (1/2) * (color.green + color.blue),
   Real.sqrt 3 * (1/2) * (color.green - color.blue))

/-- Embeds the floating-point `to_hsi` (ToHsi.h / Hsi.h). -/
noncomputable def to_hsi (f : Rgb ℝ) : Hsi ℝ :=
  let intensity := (1/3) * (f.red + f.green + f.blue)
  let ab := chromacity_coordinates f
  let hue0 := atan2 ab.2 ab.1 / Radians.period_length
  let hue := if hue0 < 0 then 1 + hue0 else hue0
  let mn := min f.red (min f.green f.blue)
  let saturation := if intensity ≠ 0 then 1 - mn / intensity else 0
  ⟨hue, saturation, intensity⟩

/-- Embeds the floating-point `to_hsl` (Hsl.h). -/
noncomputable def to_hsl (f : Rgb ℝ) : Hsl ℝ :=
  match details.order_channels_for_hue f.red f.green f.blue with
  | (c1, c2, c3, min_channel, scaling_factor) =>
    let chroma := details.chroma c1 min_channel
    let hue := details.hue chroma scaling_factor c2 c3 EPSILON
    let lightness := (1/2) * (c1 + min_channel)
    let saturation := chroma / (1 - |2 * lightness - 1| + EPSILON)
    Hsl.mk hue saturation lightness

/-- Embeds `tuple_transform_functor` for a float channel cast to uint8
followed by the narrowing C++ integer conversion (truncation): the scaling
factor is `(255 - 0) / (1.0 - 0.0)` and the shift is `0 - 0.0`. -/
noncomputable def float_chan_to_u8 (v : ℝ) : ℤ :=
  cppTrunc (v * ((255 - 0) / (1 - 0)) + (0 - 0))

/-- Embeds `color_cast;float;` on an `Rgb;uint8_t;`: each channel is scaled
by `(1.0 - 0.0) / (255 - 0)`. -/
noncomputable def color_cast_u8_to_float (c : Rgb ℕ) : Rgb ℝ :=
  ⟨(c.red : ℝ) * ((1 - 0) / (255 - 0)) + (0 - 0),
   (c.green : ℝ) * ((1 - 0) / (255 - 0)) + (0 - 0),
   (c.blue : ℝ) * ((1 - 0) / (255 - 0)) + (0 - 0)⟩

/-- Embeds `enum class HsiOutOfGamutMode` (Hsi.h). -/
inductive HsiOutOfGamutMode
  | Clip
  | Preserve

namespace details

/-- Embeds `details::preserve_oog_mode` (Hsi.h): leaves c1, c2, c3 unchanged. -/
def preserve_oog_mode (c1 c2 c3 : ℝ) : ℝ × ℝ × ℝ := (c1, c2, c3)

/-- Embeds `details::clip_oog_mode` (Hsi.h): caps c1, c2, c3 at 1.0. -/
noncomputable def clip_oog_mode (c1 c2 c3 : ℝ) : ℝ × ℝ × ℝ :=
  (min c1 1, min c2 1, min c3 1)

end details

namespace Hsi

/-- Embeds the floating-point `to_rgb(const Hsi;T;&, const FnType&)` (Hsi.h). -/
noncomputable def to_rgb_with (f : Hsi ℝ) (gamut_fn : ℝ → ℝ → ℝ → ℝ × ℝ × ℝ) :
    Rgb ℝ :=
  let hue_angle := fmodR (f.hue * Radians.period_length) (2 * Real.pi / 3)
  let c1 := f.intensity * (1 - f.saturation)
  let c2 := f.intensity *
      (1 + (f.saturation * Real.cos hue_angle) / Real.cos (Real.pi / 3 - hue_angle))
  let c3 := 3 * f.intensity - (c1 + c2)
  let t := gamut_fn c1 c2 c3
  if f.hue < 1/3 then ⟨t.2.1, t.2.2, t.1⟩
  else if f.hue < 2/3 then ⟨t.1, t.2.1, t.2.2⟩
  else ⟨t.2.2, t.1, t.2.1⟩

/-- Embeds `to_rgb(const Hsi;T;&, HsiOutOfGamutMode)` (Hsi.h). -/
noncomputable def to_rgb (f : Hsi ℝ) (gamut_fix_mode : HsiOutOfGamutMode) : Rgb ℝ :=
  match gamut_fix_mode with
  | HsiOutOfGamutMode.Clip => f.to_rgb_with details.clip_oog_mode
  | HsiOutOfGamutMode.Preserve => f.to_rgb_with details.preserve_oog_mode

/-- Embeds `Hsi::max_in_gamut_intensity` (Hsi.h): the fast hue-sector-linear
approximation of the largest in-gamut intensity for this hue/saturation. -/
noncomputable def max_in_gamut_intensity (c : Hsi ℝ) : ℝ :=
  let scaled_hue := c.hue * 3
  let seg : ℤ := cppTrunc scaled_hue
  let hue_param := (1/3) * (scaled_hue - (seg : ℝ) * 1)
  let hue_alpha := if hue_param ≤ 1/6 then 6 * hue_param else 6 * (1/3 - hue_param)
  let s := c.saturation
  let max_channel : ℝ := 1
  let min_channel := ((hue_alpha + 1) * max_channel * (s - 1)) /
      (hue_alpha * (s - 1) - 2 * s - 1)
  (1/3) * (max_channel + min_channel + hue_alpha * max_channel +
      (1 - hue_alpha) * min_channel)

/-- Embeds `Hsi::is_in_gamut` (Hsi.h). -/
noncomputable def is_in_gamut (c : Hsi ℝ) : Prop :=
  c.intensity ≤ c.max_in_gamut_intensity

end Hsi

/-- C4: converting Hsi(0, 1, 1) to RGB yields exactly (3, 0, 0) under
Preserve and exactly (1, 0, 0) under Clip (so in particular each channel is
within any floating-point tolerance of those values). -/
theorem hsi_to_rgb_red_primary :
    Hsi.to_rgb ⟨0, 1, 1⟩ HsiOutOfGamutMode.Preserve = Rgb.mk 3 0 0 ∧
    Hsi.to_rgb ⟨0, 1, 1⟩ HsiOutOfGamutMode.Clip = Rgb.mk 1 0 0 := by
  have hf : fmodR ((0 : ℝ) * Radians.period_length) (2 * Real.pi / 3) = 0 := by
    simp [fmodR, cppTrunc]
  have hc2 : (1 : ℝ) * (1 + (1 * Real.cos 0) / Real.cos (Real.pi / 3 - 0)) = 3 := by
    rw [sub_zero, Real.cos_zero, Real.cos_pi_div_three]
    norm_num
  constructor <;>
  · simp only [Hsi.to_rgb, Hsi.to_rgb_with, hf, details.preserve_oog_mode,
      details.clip_oog_mode, hc2]
    norm_num [Rgb.mk.injEq, min_eq_right, min_eq_left]
/-- C2: the integral overload of `to_hsi` does NOT apply the RGB-to-HSI
transform: the code converts through `to_hsl` instead (`ToHsi.h`, `Hsi.h`:
`return color_cast;T;(to_hsl(color_cast;FloatType;(from)));`).  At
`Rgb;uint8_t;(255, 0, 0)` the code's HSL path stores 127 (the lightness) in
the third channel, while the claimed `color_cast;T;(to_hsi(...))` would
store 85 (the intensity). -/
theorem to_hsi_integral_overload_diverges :
    float_chan_to_u8 (to_hsl (color_cast_u8_to_float ⟨255, 0, 0⟩)).lightness = 127 ∧
    float_chan_to_u8 (to_hsi (color_cast_u8_to_float ⟨255, 0, 0⟩)).intensity = 85 ∧
    (127 : ℤ) ≠ 85 := by
  have hc : color_cast_u8_to_float ⟨255, 0, 0⟩ = Rgb.mk 1 0 0 := by
    simp only [color_cast_u8_to_float]
    norm_num
  rw [hc]
  refine ⟨?_, ?_, by norm_num⟩
  · have hl : (to_hsl (Rgb.mk 1 0 0)).lightness = 1/2 := by
      simp only [to_hsl, details.order_channels_for_hue]
      norm_num
    rw [hl]
    simp only [float_chan_to_u8, cppTrunc]
    rw [if_pos (by norm_num)]
    rw [show ((1:ℝ)/2) * ((255 - 0) / (1 - 0)) + (0 - 0) = 255/2 from by norm_num]
    rw [show ⌊(255:ℝ)/2⌋ = (127:ℤ) from Int.floor_eq_iff.mpr (by norm_num)]
  · have hi : (to_hsi (Rgb.mk 1 0 0)).intensity = 1/3 := by
      simp only [to_hsi]
      norm_num
    rw [hi]
    simp only [float_chan_to_u8, cppTrunc]
    rw [if_pos (by norm_num)]
    rw [show ((1:ℝ)/3) * ((255 - 0) / (1 - 0)) + (0 - 0) = 85 from by norm_num]
    rw [show ((85:ℝ)) = ((85:ℤ):ℝ) from by norm_num, Int.floor_intCast]


/-- The cosine of 2 pi / 5, from the Mathlib value at pi / 5. -/
theorem cos_two_pi_div_five : Real.cos (2 * Real.pi / 5) = (Real.sqrt 5 - 1) / 4 := by
  have h1 : Real.cos (2 * (Real.pi / 5)) = 2 * Real.cos (Real.pi / 5) ^ 2 - 1 :=
    Real.cos_two_mul _
  have h5 : Real.sqrt 5 ^ 2 = 5 := Real.sq_sqrt (by norm_num)
  rw [show (2:ℝ) * Real.pi / 5 = 2 * (Real.pi / 5) by ring, h1, Real.cos_pi_div_five]
  linear_combination (1/8) * h5

/-- The cosine of the hue angle of Hsi hue 0.3 (an angle of 108 degrees). -/
theorem cos_three_pi_div_five : Real.cos (3 * Real.pi / 5) = (1 - Real.sqrt 5) / 4 := by
  rw [show (3:ℝ) * Real.pi / 5 = Real.pi - 2 * Real.pi / 5 by ring, Real.cos_pi_sub,
    cos_two_pi_div_five]
  ring

/-- The sine of that hue angle. -/
theorem sin_three_pi_div_five :
    Real.sin (3 * Real.pi / 5) = Real.sqrt (10 + 2 * Real.sqrt 5) / 4 := by
  have h5 : Real.sqrt 5 ^ 2 = 5 := Real.sq_sqrt (by norm_num)
  have hnn : 0 ≤ Real.sin (3 * Real.pi / 5) := by
    apply Real.sin_nonneg_of_nonneg_of_le_pi
    · positivity
    · nlinarith [Real.pi_pos]
  have hsq : Real.sin (3 * Real.pi / 5) ^ 2 = (10 + 2 * Real.sqrt 5) / 16 := by
    have := Real.sin_sq_add_cos_sq (3 * Real.pi / 5)
    rw [cos_three_pi_div_five] at this
    nlinarith [this]
  have h1 : Real.sin (3 * Real.pi / 5)
      = Real.sqrt (Real.sin (3 * Real.pi / 5) ^ 2) := (Real.sqrt_sq hnn).symm
  rw [h1, hsq, Real.sqrt_div (by positivity : (0:ℝ) ≤ 10 + 2 * Real.sqrt 5) 16,
    show Real.sqrt 16 = 4 from by
      rw [show (16:ℝ) = 4 ^ 2 by norm_num, Real.sqrt_sq (by norm_num)]]


/-- The cosine in the denominator of the HSI reconstruction at hue 0.3. -/
theorem cos_hsi_denominator :
    Real.cos (Real.pi / 3 - 3 * Real.pi / 5)
      = ((1 - Real.sqrt 5) + Real.sqrt 3 * Real.sqrt (10 + 2 * Real.sqrt 5)) / 8 := by
  rw [show Real.pi / 3 - 3 * Real.pi / 5 = -(3 * Real.pi / 5 - Real.pi / 3) by ring,
    Real.cos_neg, Real.cos_sub, cos_three_pi_div_five, sin_three_pi_div_five,
    Real.cos_pi_div_three, Real.sin_pi_div_three]
  ring

/-- The algebraic core of the C3 counterexample: at hue 0.3 and saturation
1 the true maximum channel of the Preserve conversion stays strictly below
0.985 while the approximate gamut threshold is already exceeded. -/
theorem hsi_gamut_key :
    985000 * (Real.sqrt 5 - 1)
      < 184998 * (Real.sqrt 3 * Real.sqrt (10 + 2 * Real.sqrt 5)) := by
  have h5 : Real.sqrt 5 ^ 2 = 5 := Real.sq_sqrt (by norm_num)
  have h5p : 0 < Real.sqrt 5 := Real.sqrt_pos.mpr (by norm_num)
  have h5lo : (2236067 : ℝ) / 1000000 < Real.sqrt 5 := by
    nlinarith [h5, h5p]
  have h5hi : Real.sqrt 5 < 2236068 / 1000000 := by
    nlinarith [h5, h5p]
  have h3 : Real.sqrt 3 ^ 2 = 3 := Real.sq_sqrt (by norm_num)
  have h3p : 0 < Real.sqrt 3 := Real.sqrt_pos.mpr (by norm_num)
  have hw : Real.sqrt (10 + 2 * Real.sqrt 5) ^ 2 = 10 + 2 * Real.sqrt 5 :=
    Real.sq_sqrt (by positivity)
  have hwp : 0 < Real.sqrt (10 + 2 * Real.sqrt 5) := Real.sqrt_pos.mpr (by positivity)
  have hA2 : (Real.sqrt 3 * Real.sqrt (10 + 2 * Real.sqrt 5)) ^ 2
      = 30 + 6 * Real.sqrt 5 := by
    rw [mul_pow, h3, hw]
    ring
  have hAp : 0 < Real.sqrt 3 * Real.sqrt (10 + 2 * Real.sqrt 5) := mul_pos h3p hwp
  have key : (985000 * (Real.sqrt 5 - 1)) ^ 2
      < (184998 * (Real.sqrt 3 * Real.sqrt (10 + 2 * Real.sqrt 5))) ^ 2 := by
    rw [mul_pow, mul_pow, hA2]
    nlinarith [h5, h5lo]
  nlinarith [key, hAp, h5lo]


/-- C3 refutation at Hsi(0.3, 1, 0.400001): `is_in_gamut()` returns false
(the fast approximation computes the threshold 2/5 exactly), yet converting
under Preserve yields channels approximately (0.1970, 0.98473, 0): every
channel is at most 1 AND every channel differs from 1.0 by MORE than the
documented tolerance 0.015, so the predicate disagrees with
convert-and-check outside its stated tolerance. -/
theorem is_in_gamut_tolerance_violated :
    ¬ Hsi.is_in_gamut ⟨3/10, 1, 400001/1000000⟩ ∧
    ((Hsi.to_rgb ⟨3/10, 1, 400001/1000000⟩ HsiOutOfGamutMode.Preserve).red ≤ 1 ∧
     (Hsi.to_rgb ⟨3/10, 1, 400001/1000000⟩ HsiOutOfGamutMode.Preserve).green ≤ 1 ∧
     (Hsi.to_rgb ⟨3/10, 1, 400001/1000000⟩ HsiOutOfGamutMode.Preserve).blue ≤ 1) ∧
    (|(Hsi.to_rgb ⟨3/10, 1, 400001/1000000⟩ HsiOutOfGamutMode.Preserve).red - 1| > 15/1000 ∧
     |(Hsi.to_rgb ⟨3/10, 1, 400001/1000000⟩ HsiOutOfGamutMode.Preserve).green - 1| > 15/1000 ∧
     |(Hsi.to_rgb ⟨3/10, 1, 400001/1000000⟩ HsiOutOfGamutMode.Preserve).blue - 1| > 15/1000) := by
  have htr : cppTrunc ((9:ℝ)/10) = 0 := by
    rw [cppTrunc, if_pos (by norm_num : (0:ℝ) ≤ 9/10)]
    exact Int.floor_eq_iff.mpr (by norm_num)
  have h5 : Real.sqrt 5 ^ 2 = 5 := Real.sq_sqrt (by norm_num)
  have h5p : 0 < Real.sqrt 5 := Real.sqrt_pos.mpr (by norm_num)
  have h5lo : (2236067 : ℝ) / 1000000 < Real.sqrt 5 := by nlinarith [h5, h5p]
  have hkey := hsi_gamut_key
  have h3p : 0 < Real.sqrt 3 := Real.sqrt_pos.mpr (by norm_num)
  have hwp : 0 < Real.sqrt (10 + 2 * Real.sqrt 5) := Real.sqrt_pos.mpr (by positivity)
  have hPp : 0 < Real.sqrt 3 * Real.sqrt (10 + 2 * Real.sqrt 5) := mul_pos h3p hwp
  have hcB : (0:ℝ) < ((1 - Real.sqrt 5) + Real.sqrt 3 * Real.sqrt (10 + 2 * Real.sqrt 5)) / 8 := by
    nlinarith [hkey, h5lo]
  refine ⟨?_, ?_⟩
  · -- is_in_gamut is false: the approximate threshold is exactly 2/5
    have hmig : Hsi.max_in_gamut_intensity ⟨3/10, 1, 400001/1000000⟩ = 2/5 := by
      simp only [Hsi.max_in_gamut_intensity]
      rw [show (3:ℝ)/10 * 3 = 9/10 by norm_num, htr]
      norm_num
    simp only [Hsi.is_in_gamut, hmig]
    norm_num
  · -- converting under Preserve gives channels (about 0.197, about 0.9847, 0)
    have hmod : fmodR ((3:ℝ)/10 * Radians.period_length) (2 * Real.pi / 3)
        = 3 * Real.pi / 5 := by
      rw [fmodR, Radians.period_length,
        show (3:ℝ)/10 * (2 * Real.pi) / (2 * Real.pi / 3) = 9/10 from by
          rw [div_eq_iff (by positivity : (2 * Real.pi / 3 : ℝ) ≠ 0)]
          ring,
        htr]
      push_cast
      ring
    have hpres : Hsi.to_rgb ⟨3/10, 1, 400001/1000000⟩ HsiOutOfGamutMode.Preserve
        = Rgb.mk
          (400001/1000000 * (1 + 1 * Real.cos (3 * Real.pi / 5)
            / Real.cos (Real.pi / 3 - 3 * Real.pi / 5)))
          (3 * (400001/1000000) - (400001/1000000 * (1 - 1)
            + 400001/1000000 * (1 + 1 * Real.cos (3 * Real.pi / 5)
              / Real.cos (Real.pi / 3 - 3 * Real.pi / 5))))
          (400001/1000000 * (1 - 1)) := by
      simp only [Hsi.to_rgb, Hsi.to_rgb_with, details.preserve_oog_mode, hmod]
      rw [if_pos (by norm_num : (3:ℝ)/10 < 1/3)]
    rw [hpres]
    simp only [cos_three_pi_div_five, cos_hsi_denominator]
    have hrat : 1 * ((1 - Real.sqrt 5) / 4)
        / (((1 - Real.sqrt 5) + Real.sqrt 3 * Real.sqrt (10 + 2 * Real.sqrt 5)) / 8) ≤ 0 := by
      apply div_nonpos_iff.mpr
      right
      constructor
      · nlinarith [h5lo]
      · exact hcB.le
    have hg : (400001/1000000 : ℝ) * (-((1 - Real.sqrt 5) / 4))
        / (((1 - Real.sqrt 5) + Real.sqrt 3 * Real.sqrt (10 + 2 * Real.sqrt 5)) / 8)
        < 184998/1000000 := by
      rw [div_lt_iff₀ hcB]
      nlinarith [hkey]
    -- name the two channel values
    set s5 := Real.sqrt 5
    set P := Real.sqrt 3 * Real.sqrt (10 + 2 * Real.sqrt 5)
    have hgreen : (3 * (400001/1000000 : ℝ) - (400001/1000000 * (1 - 1)
          + 400001/1000000 * (1 + 1 * ((1 - s5) / 4) / (((1 - s5) + P) / 8))))
        = 2 * (400001/1000000)
          + 400001/1000000 * (-((1 - s5) / 4)) / (((1 - s5) + P) / 8) := by
      ring
    have hred : (400001/1000000 : ℝ) * (1 + 1 * ((1 - s5) / 4) / (((1 - s5) + P) / 8))
        ≤ 400001/1000000 := by
      nlinarith [hrat]
    refine ⟨⟨by linarith, ?_, by norm_num⟩, ⟨?_, ?_, by norm_num⟩⟩
    · rw [hgreen]
      linarith [hg]
    · rw [abs_of_nonpos (by linarith : (400001/1000000 : ℝ)
        * (1 + 1 * ((1 - s5) / 4) / (((1 - s5) + P) / 8)) - 1 ≤ 0)]
      linarith [hred]
    · rw [hgreen, abs_of_nonpos (by linarith [hg] :
        2 * (400001/1000000 : ℝ)
          + 400001/1000000 * (-((1 - s5) / 4)) / (((1 - s5) + P) / 8) - 1 ≤ 0)]
      linarith [hg]


end ColorLib
